import Mathlib

/-!
Shallow embedding of `media/filters/decrypting_audio_decoder.cc` (the
decrypting audio decode stage of the media pipeline).

Each C++ method of `DecryptingAudioDecoder` becomes a Lean function on an
explicit state record.  Asynchronous callback invocations and calls into the
external decryptor are recorded as an emitted list of `Event`s, in the order
the C++ code runs (or posts) them.  `DCHECK`/`CHECK` failures and null-pointer
dereferences are modelled as `none` (fatal contract violations), so a
function returning `some` means the run hits no assertion.

`base::Callback` members (`init_cb_`, `decode_cb_`, `reset_cb_`,
`set_decryptor_ready_cb_`) are modelled as Booleans recording whether the
callback is currently non-null; running such a callback emits the
corresponding `Event` and resets the flag (the `base::ResetAndReturn`
discipline).  The weak-pointer invalidation performed by `Stop` is modelled
by the `weak_ptrs_valid` flag, checked by the `...Task` wrappers that stand
for callbacks bound through `weak_this_`.
-/

namespace Media

/-- Sample formats (the subset of `media::SampleFormat` relevant here). -/
inductive SampleFormat where
  | kUnknownSampleFormat
  | kSampleFormatU8
  | kSampleFormatS16
  | kSampleFormatS32
  | kSampleFormatF32
  | kSampleFormatPlanarF32
  deriving DecidableEq, Repr

/-- Channel layouts (subset of `media::ChannelLayout`). -/
inductive ChannelLayout where
  | CHANNEL_LAYOUT_NONE
  | CHANNEL_LAYOUT_MONO
  | CHANNEL_LAYOUT_STEREO
  deriving DecidableEq, Repr

/-- `media::AudioDecoderConfig`: the fields this stage reads, plus the result
of `IsValidConfig()`.  `IsValidConfig` itself is defined in
`media/base/audio_decoder_config.cc`, which is not part of this repository
snapshot, so its verdict is carried as the field `valid` (modelled from the
spec: the configuration "must be valid and must indicate encrypted content").
Codec ids and extra codec data are opaque. -/
structure AudioDecoderConfig where
  codec : Nat
  sample_format : SampleFormat
  channel_layout : ChannelLayout
  samples_per_second : Nat
  extra_data : List Nat
  is_encrypted : Bool
  valid : Bool
  deriving DecidableEq, Repr

instance : Inhabited AudioDecoderConfig :=
  ⟨⟨0, .kUnknownSampleFormat, .CHANNEL_LAYOUT_NONE, 0, [], false, false⟩⟩

/-- `media::DecoderBuffer`: an encrypted input buffer.  Timestamps are exact
rationals (seconds).  `payload` is an opaque identifier for the payload
bytes; `data_size` is the byte count reported by `data_size()`. -/
structure DecoderBuffer where
  end_of_stream : Bool
  timestamp : ℚ
  data_size : Nat
  payload : Nat
  deriving DecidableEq, Repr

/-- `media::AudioBuffer`: a decoded frame.  `payload` is an opaque identifier
for the sample data. -/
structure AudioBuffer where
  end_of_stream : Bool
  frame_count : Nat
  timestamp : ℚ
  duration : ℚ
  payload : Nat
  deriving DecidableEq, Repr

/-- `AudioBuffer::CreateEOSBuffer()`: the end-of-stream sentinel frame. -/
def AudioBuffer.CreateEOSBuffer : AudioBuffer :=
  { end_of_stream := true, frame_count := 0, timestamp := 0, duration := 0,
    payload := 0 }

/-- Modelled from the spec: `media::AudioTimestampHelper`
(`media/base/audio_timestamp_helper.cc` is not part of this repository
snapshot).  Per spec section 4.3: it keeps a base timestamp (absent until
seeded, `kNoTimestamp()` is `none`) and a running frame count; each frame's
duration is `frame_count / sample_rate` and the running timestamp advances
by that duration. -/
structure AudioTimestampHelper where
  samples_per_second : Nat
  base_timestamp : Option ℚ
  frame_count : Nat
  deriving DecidableEq, Repr

/-- Modelled from the spec: constructing the helper for a sample rate; the
base timestamp starts out absent. -/
def AudioTimestampHelper.create (rate : Nat) : AudioTimestampHelper :=
  { samples_per_second := rate, base_timestamp := none, frame_count := 0 }

/-- Modelled from the spec: `SetBaseTimestamp` installs a new base (possibly
`kNoTimestamp()`, i.e. `none`) and restarts the frame count. -/
def AudioTimestampHelper.SetBaseTimestamp (h : AudioTimestampHelper)
    (t : Option ℚ) : AudioTimestampHelper :=
  { h with base_timestamp := t, frame_count := 0 }

/-- Modelled from the spec: `GetTimestamp` is the base plus the accumulated
frames converted to seconds; absent when no base has been seeded (the C++
code `DCHECK`s the base is present). -/
def AudioTimestampHelper.GetTimestamp (h : AudioTimestampHelper) : Option ℚ :=
  h.base_timestamp.map
    (fun b => b + (h.frame_count : ℚ) / (h.samples_per_second : ℚ))

/-- Modelled from the spec: the duration of `n` frames is
`n / sample_rate` seconds. -/
def AudioTimestampHelper.GetFrameDuration (h : AudioTimestampHelper)
    (n : Nat) : ℚ :=
  (n : ℚ) / (h.samples_per_second : ℚ)

/-- Modelled from the spec: `AddFrames` advances the running frame count. -/
def AudioTimestampHelper.AddFrames (h : AudioTimestampHelper)
    (n : Nat) : AudioTimestampHelper :=
  { h with frame_count := h.frame_count + n }

/-- `media::PipelineStatus` values used by this stage. -/
inductive PipelineStatus where
  | PIPELINE_OK
  | PIPELINE_ERROR_DECODE
  | DECODER_ERROR_NOT_SUPPORTED
  deriving DecidableEq, Repr

/-- `media::AudioDecoder::Status`, the result kind passed to `decode_cb_`. -/
inductive AudioDecoderStatus where
  | kOk
  | kAborted
  | kNotEnoughData
  | kDecodeError
  deriving DecidableEq, Repr

/-- `media::Decryptor::Status`, the status of a decrypt-and-decode answer. -/
inductive DecryptorStatus where
  | kSuccess
  | kNoKey
  | kNeedMoreData
  | kError
  deriving DecidableEq, Repr

/-- Observable actions of the stage: callbacks it runs (or posts via
`BindToCurrentLoop`) and calls it makes into the external decryptor, in
program order. -/
inductive Event where
  | InitCbRun (s : PipelineStatus)
  | DecodeCbRun (s : AudioDecoderStatus) (frame : Option AudioBuffer)
  | ResetCbRun
  | RequestDecryptor
  | DecryptAndDecodeAudio (buf : DecoderBuffer)
  | ResetDecoder
  | DeinitializeDecoder
  | InitializeAudioDecoder (cfg : AudioDecoderConfig)
  | RegisterNewKeyCb
  | RunSetDecryptorReadyCbNull
  | PostStopClosure
  deriving DecidableEq, Repr

/-- `DecryptingAudioDecoder::State`. -/
inductive State where
  | kUninitialized
  | kDecryptorRequested
  | kPendingDecoderInit
  | kIdle
  | kPendingDecode
  | kWaitingForKey
  | kDecodeFinished
  | kStopped
  deriving DecidableEq, Repr

/-- The member state of a `DecryptingAudioDecoder` instance.  Callback
members are Booleans recording non-nullness; `has_decryptor` records whether
`decryptor_` is non-null; `weak_ptrs_valid` records whether weak pointers
handed to pending asynchronous continuations are still valid. -/
structure DecryptingAudioDecoder where
  state : State
  init_cb : Bool
  decode_cb : Bool
  reset_cb : Bool
  set_decryptor_ready_cb : Bool
  has_decryptor : Bool
  key_added_while_decode_pending : Bool
  pending_buffer_to_decode : Option DecoderBuffer
  queued_audio_frames : List AudioBuffer
  bits_per_channel : Nat
  channel_layout : ChannelLayout
  samples_per_second : Nat
  timestamp_helper : Option AudioTimestampHelper
  config : AudioDecoderConfig
  weak_ptrs_valid : Bool
  deriving DecidableEq, Repr

/-- `DecryptingAudioDecoder::kSupportedBitsPerChannel = 16`. -/
def kSupportedBitsPerChannel : Nat := 16

/-- The constructor: state `kUninitialized`, null callbacks except the
caller-supplied `set_decryptor_ready_cb_`, no decryptor, cleared flags. -/
def DecryptingAudioDecoder.construct : DecryptingAudioDecoder :=
  { state := .kUninitialized, init_cb := false, decode_cb := false,
    reset_cb := false, set_decryptor_ready_cb := true, has_decryptor := false,
    key_added_while_decode_pending := false, pending_buffer_to_decode := none,
    queued_audio_frames := [], bits_per_channel := 0,
    channel_layout := .CHANNEL_LAYOUT_NONE, samples_per_second := 0,
    timestamp_helper := none, config := default, weak_ptrs_valid := false }

namespace DecryptingAudioDecoder

/-- `DecryptingAudioDecoder::UpdateDecoderConfig()`: publish bits-per-channel
(the fixed constant), channel layout and sample rate from `config_`, and
build a fresh timestamp helper for that rate. -/
def UpdateDecoderConfig (d : DecryptingAudioDecoder) : DecryptingAudioDecoder :=
  { d with bits_per_channel := kSupportedBitsPerChannel,
           channel_layout := d.config.channel_layout,
           samples_per_second := d.config.samples_per_second,
           timestamp_helper :=
             some (AudioTimestampHelper.create d.config.samples_per_second) }

/-- `DecryptingAudioDecoder::InitializeDecoder()`: rewrite `config_` forcing
the sample format to `kSampleFormatS16`, move to `kPendingDecoderInit` and
call `decryptor_->InitializeAudioDecoder` with the rewritten config. -/
def InitializeDecoder (d : DecryptingAudioDecoder) :
    DecryptingAudioDecoder × List Event :=
  let cfg := { d.config with sample_format := .kSampleFormatS16 }
  ({ d with config := cfg, state := .kPendingDecoderInit },
   [.InitializeAudioDecoder cfg])

/-- `DecryptingAudioDecoder::Initialize(config, status_cb)`. -/
def InitializeOp (d : DecryptingAudioDecoder) (config : AudioDecoderConfig) :
    Option (DecryptingAudioDecoder × List Event) :=
  if d.decode_cb then none else          -- DCHECK(decode_cb_.is_null())
  if d.reset_cb then none else           -- DCHECK(reset_cb_.is_null())
  let d := { d with weak_ptrs_valid := true, init_cb := true }
  if config.valid = false then
    some ({ d with init_cb := false }, [.InitCbRun .PIPELINE_ERROR_DECODE])
  else if config.is_encrypted = false then
    some ({ d with init_cb := false },
          [.InitCbRun .DECODER_ERROR_NOT_SUPPORTED])
  else
    let d := { d with config := config }
    if d.state = .kUninitialized then
      some ({ d with state := .kDecryptorRequested }, [.RequestDecryptor])
    else
      if d.has_decryptor = false then none else  -- decryptor_-> deref
      let (d', evs) := InitializeDecoder d
      some (d', .DeinitializeDecoder :: evs)

/-- `DecryptingAudioDecoder::SetDecryptor(decryptor)`; `has` records whether
the delivered decryptor pointer is non-null. -/
def SetDecryptor (d : DecryptingAudioDecoder) (has : Bool) :
    Option (DecryptingAudioDecoder × List Event) :=
  if d.state ≠ .kDecryptorRequested then none else
  if d.init_cb = false then none else
  if d.set_decryptor_ready_cb = false then none else
  let d := { d with set_decryptor_ready_cb := false }
  if has = false then
    some ({ d with init_cb := false, state := .kStopped },
          [.InitCbRun .DECODER_ERROR_NOT_SUPPORTED])
  else
    let d := { d with has_decryptor := true }
    some (InitializeDecoder d)

/-- `DecryptingAudioDecoder::FinishInitialization(success)`. -/
def FinishInitialization (d : DecryptingAudioDecoder) (success : Bool) :
    Option (DecryptingAudioDecoder × List Event) :=
  if d.state ≠ .kPendingDecoderInit then none else
  if d.init_cb = false then none else
  if d.reset_cb then none else
  if d.decode_cb then none else
  if success = false then
    some ({ d with init_cb := false, state := .kStopped },
          [.InitCbRun .DECODER_ERROR_NOT_SUPPORTED])
  else
    let d := UpdateDecoderConfig d
    some ({ d with state := .kIdle, init_cb := false },
          [.RegisterNewKeyCb, .InitCbRun .PIPELINE_OK])

/-- `DecryptingAudioDecoder::DecodePendingBuffer()`: submit
`pending_buffer_to_decode_` to `decryptor_->DecryptAndDecodeAudio`. -/
def DecodePendingBuffer (d : DecryptingAudioDecoder) :
    Option (DecryptingAudioDecoder × List Event) :=
  if d.state ≠ .kPendingDecode then none else    -- DCHECK_EQ(state_, kPendingDecode)
  match d.pending_buffer_to_decode with
  | none => none                                 -- null dereference
  | some buf => some (d, [.DecryptAndDecodeAudio buf])

/-- `DecryptingAudioDecoder::Decode(buffer, decode_cb)`.  The C++ buffer is a
`scoped_refptr` that may be null, hence `Option DecoderBuffer`. -/
def Decode (d : DecryptingAudioDecoder) (buffer : Option DecoderBuffer) :
    Option (DecryptingAudioDecoder × List Event) :=
  if ¬(d.state = .kIdle ∨ d.state = .kDecodeFinished) then none else
  if d.decode_cb then none else                  -- CHECK: overlapping decodes
  let d := { d with decode_cb := true }
  if d.state = .kDecodeFinished then
    some ({ d with decode_cb := false },
          [.DecodeCbRun .kOk (some AudioBuffer.CreateEOSBuffer)])
  else
    match d.queued_audio_frames with
    | f :: rest =>
      if buffer.isSome then none else            -- DCHECK(!buffer)
      some ({ d with decode_cb := false, queued_audio_frames := rest },
            [.DecodeCbRun .kOk (some f)])
    | [] =>
      match buffer with
      | none => none                             -- buffer-> dereference
      | some buf =>
        match d.timestamp_helper with
        | none => none                           -- timestamp_helper_-> deref
        | some h =>
          let h :=
            if h.base_timestamp = none ∧ buf.end_of_stream = false then
              AudioTimestampHelper.SetBaseTimestamp h (some buf.timestamp)
            else h
          DecodePendingBuffer
            { d with timestamp_helper := some h,
                     pending_buffer_to_decode := some buf,
                     state := .kPendingDecode }

/-- `DecryptingAudioDecoder::GetDecodeOutput()`: pop the front queued frame,
or null when the queue is empty. -/
def GetDecodeOutput (d : DecryptingAudioDecoder) :
    Option AudioBuffer × DecryptingAudioDecoder :=
  match d.queued_audio_frames with
  | [] => (none, d)
  | f :: rest => (some f, { d with queued_audio_frames := rest })

/-- `DecryptingAudioDecoder::DoReset()`: clear the timestamp base, return to
`kIdle` and run `reset_cb_`. -/
def DoReset (d : DecryptingAudioDecoder) :
    Option (DecryptingAudioDecoder × List Event) :=
  if d.init_cb then none else                    -- DCHECK(init_cb_.is_null())
  if d.decode_cb then none else                  -- DCHECK(decode_cb_.is_null())
  match d.timestamp_helper with
  | none => none                                 -- timestamp_helper_-> deref
  | some h =>
    if d.reset_cb = false then none else         -- Run() on a null callback
    some ({ d with timestamp_helper :=
                     some (AudioTimestampHelper.SetBaseTimestamp h none),
                   state := .kIdle, reset_cb := false },
          [.ResetCbRun])

/-- `DecryptingAudioDecoder::Reset(closure)`. -/
def Reset (d : DecryptingAudioDecoder) :
    Option (DecryptingAudioDecoder × List Event) :=
  if ¬(d.state = .kIdle ∨ d.state = .kPendingDecode ∨
       d.state = .kWaitingForKey ∨ d.state = .kDecodeFinished) then none else
  if d.init_cb then none else                    -- no Reset during pending init
  if d.reset_cb then none else                   -- DCHECK(reset_cb_.is_null())
  if d.has_decryptor = false then none else      -- decryptor_->ResetDecoder deref
  let d := { d with reset_cb := true }
  if d.state = .kPendingDecode then
    if d.decode_cb = false then none else        -- DCHECK(!decode_cb_.is_null())
    some (d, [.ResetDecoder])                    -- defer: completes in DeliverFrame
  else
    let step : Option (DecryptingAudioDecoder × List Event) :=
      if d.state = .kWaitingForKey then
        if d.decode_cb = false then none else    -- DCHECK(!decode_cb_.is_null())
        some ({ d with pending_buffer_to_decode := none, decode_cb := false },
              [.DecodeCbRun .kAborted none])
      else some (d, [])
    match step with
    | none => none
    | some (d', evs) =>
      if d'.decode_cb then none else             -- DCHECK(decode_cb_.is_null())
      match DoReset d' with
      | none => none
      | some (d'', evs') => some (d'', .ResetDecoder :: (evs ++ evs'))

/-- The per-frame loop of `DecryptingAudioDecoder::EnqueueFrames`: stamp each
frame with the helper's running timestamp and the duration of its frame
count, then advance the helper.  (The out-of-sync comparison against the
decryptor-supplied timestamp is a log-only diagnostic and has no effect.)
Fails on the `DCHECK`s: an end-of-stream frame or an empty frame, or a
helper with no base timestamp. -/
def enqueueLoop (h : AudioTimestampHelper) :
    List AudioBuffer → Option (List AudioBuffer × AudioTimestampHelper)
  | [] => some ([], h)
  | f :: fs =>
    if f.end_of_stream then none else            -- DCHECK(!frame->end_of_stream())
    if f.frame_count = 0 then none else          -- DCHECK_GT(frame_count, 0)
    match AudioTimestampHelper.GetTimestamp h with
    | none => none
    | some t =>
      let f' := { f with timestamp := t,
                         duration :=
                           AudioTimestampHelper.GetFrameDuration h f.frame_count }
      match enqueueLoop (AudioTimestampHelper.AddFrames h f.frame_count) fs with
      | none => none
      | some (fs', h') => some (f' :: fs', h')

/-- `DecryptingAudioDecoder::EnqueueFrames(frames)`: install the decoded
frames as the queue, rewriting their timestamps and durations in place. -/
def EnqueueFrames (d : DecryptingAudioDecoder) (frames : List AudioBuffer) :
    Option DecryptingAudioDecoder :=
  match d.timestamp_helper with
  | none => none
  | some h =>
    match enqueueLoop h frames with
    | none => none
    | some (fs', h') =>
      some { d with queued_audio_frames := fs', timestamp_helper := some h' }

/-- `DecryptingAudioDecoder::DeliverFrame(buffer_size, status, frames)`.
(`buffer_size` is unused by the method body and omitted.) -/
def DeliverFrame (d : DecryptingAudioDecoder) (status : DecryptorStatus)
    (frames : List AudioBuffer) :
    Option (DecryptingAudioDecoder × List Event) :=
  if d.state ≠ .kPendingDecode then none else    -- DCHECK_EQ(state_, kPendingDecode)
  if d.decode_cb = false then none else          -- DCHECK(!decode_cb_.is_null())
  match d.pending_buffer_to_decode with
  | none => none                                 -- DCHECK(pending_buffer_to_decode_)
  | some buf =>
  if d.queued_audio_frames ≠ [] then none else   -- DCHECK(queued_audio_frames_.empty())
  let retry := d.key_added_while_decode_pending
  let d := { d with key_added_while_decode_pending := false,
                    pending_buffer_to_decode := none }
  if d.reset_cb then
    -- a pending Reset short-circuits: abort the decode, then DoReset
    match DoReset { d with decode_cb := false } with
    | none => none
    | some (d', evs) => some (d', .DecodeCbRun .kAborted none :: evs)
  else
  if ¬(status = .kSuccess ↔ frames ≠ []) then none else  -- DCHECK_EQ
  match status with
  | .kError =>
    some ({ d with state := .kDecodeFinished, decode_cb := false },
          [.DecodeCbRun .kDecodeError none])
  | .kNoKey =>
    -- put the buffer back so it can be retried when a key arrives
    let d := { d with pending_buffer_to_decode := some buf }
    if retry then DecodePendingBuffer d
    else some ({ d with state := .kWaitingForKey }, [])
  | .kNeedMoreData =>
    if buf.end_of_stream then
      some ({ d with state := .kDecodeFinished, decode_cb := false },
            [.DecodeCbRun .kOk (some AudioBuffer.CreateEOSBuffer)])
    else
      some ({ d with state := .kIdle, decode_cb := false },
            [.DecodeCbRun .kNotEnoughData none])
  | .kSuccess =>
    match EnqueueFrames d frames with
    | none => none
    | some d' =>
      match d'.queued_audio_frames with
      | [] => none                               -- front() of an empty deque
      | f :: rest =>
        some ({ d' with state := .kIdle, decode_cb := false,
                        queued_audio_frames := rest },
              [.DecodeCbRun .kOk (some f)])

/-- `DecryptingAudioDecoder::OnKeyAdded()`. -/
def OnKeyAdded (d : DecryptingAudioDecoder) :
    Option (DecryptingAudioDecoder × List Event) :=
  if d.state = .kPendingDecode then
    some ({ d with key_added_while_decode_pending := true }, [])
  else if d.state = .kWaitingForKey then
    DecodePendingBuffer { d with state := .kPendingDecode }
  else some (d, [])

/-- `DecryptingAudioDecoder::Stop(closure)`: invalidate weak pointers, drop
the decryptor, flush every outstanding callback in program order, release the
pending buffer, end in `kStopped`, and post the caller's closure. -/
def Stop (d : DecryptingAudioDecoder) : DecryptingAudioDecoder × List Event :=
  let d := { d with weak_ptrs_valid := false }
  let (d, e1) :=
    if d.has_decryptor then
      ({ d with has_decryptor := false }, [Event.DeinitializeDecoder])
    else (d, [])
  let (d, e2) :=
    if d.set_decryptor_ready_cb then
      ({ d with set_decryptor_ready_cb := false },
       [Event.RunSetDecryptorReadyCbNull])
    else (d, [])
  let d := { d with pending_buffer_to_decode := none }
  let (d, e3) :=
    if d.init_cb then
      ({ d with init_cb := false },
       [Event.InitCbRun .DECODER_ERROR_NOT_SUPPORTED])
    else (d, [])
  let (d, e4) :=
    if d.decode_cb then
      ({ d with decode_cb := false }, [Event.DecodeCbRun .kAborted none])
    else (d, [])
  let (d, e5) :=
    if d.reset_cb then ({ d with reset_cb := false }, [Event.ResetCbRun])
    else (d, [])
  ({ d with state := .kStopped },
   e1 ++ e2 ++ e3 ++ e4 ++ e5 ++ [Event.PostStopClosure])

/-- The `DeliverFrame` continuation as bound through `weak_this_`: after
`Stop` invalidated the weak pointers it is dropped without running. -/
def DeliverFrameTask (d : DecryptingAudioDecoder) (status : DecryptorStatus)
    (frames : List AudioBuffer) :
    Option (DecryptingAudioDecoder × List Event) :=
  if d.weak_ptrs_valid then DeliverFrame d status frames else some (d, [])

/-- The `OnKeyAdded` continuation as bound through `weak_this_`. -/
def OnKeyAddedTask (d : DecryptingAudioDecoder) :
    Option (DecryptingAudioDecoder × List Event) :=
  if d.weak_ptrs_valid then OnKeyAdded d else some (d, [])

/-- The `SetDecryptor` continuation as bound through `weak_this_`. -/
def SetDecryptorTask (d : DecryptingAudioDecoder) (has : Bool) :
    Option (DecryptingAudioDecoder × List Event) :=
  if d.weak_ptrs_valid then SetDecryptor d has else some (d, [])

/-- The `FinishInitialization` continuation as bound through `weak_this_`. -/
def FinishInitializationTask (d : DecryptingAudioDecoder) (success : Bool) :
    Option (DecryptingAudioDecoder × List Event) :=
  if d.weak_ptrs_valid then FinishInitialization d success else some (d, [])

end DecryptingAudioDecoder

/-- Whether an event is an invocation of the caller's decode callback. -/
def isDecodeCbRun : Event → Bool
  | .DecodeCbRun _ _ => true
  | _ => false

/-- Whether an event is a decrypt-and-decode submission to the decryptor. -/
def isSubmit : Event → Bool
  | .DecryptAndDecodeAudio _ => true
  | _ => false

/-- Number of `decode_cb_` invocations recorded in an event list. -/
def decodeCbCount (evs : List Event) : Nat :=
  (evs.filter isDecodeCbRun).length

/-- Number of decrypt-and-decode submissions recorded in an event list. -/
def submitCount (evs : List Event) : Nat :=
  (evs.filter isSubmit).length

/-- The reference timestamp/duration timeline: starting at time `t`, a batch
with the given frame counts at the given sample rate yields, per frame, the
running timestamp paired with the frame's duration, the time advancing by
each duration in turn.  Written from the spec wording for §4.3 (timestamp
reconstruction depends only on the start time, the rate and the counts). -/
def timeline (t : ℚ) (rate : Nat) : List Nat → List (ℚ × ℚ)
  | [] => []
  | n :: ns =>
    (t, (n : ℚ) / (rate : ℚ)) :: timeline (t + (n : ℚ) / (rate : ℚ)) rate ns

/-- Queue invariant: whenever the stage is waiting on the decryptor
(`kPendingDecode`) or waiting for a key, the output frame queue is empty. -/
def QueueInv (d : DecryptingAudioDecoder) : Prop :=
  (d.state = .kPendingDecode ∨ d.state = .kWaitingForKey) →
    d.queued_audio_frames = []

instance (d : DecryptingAudioDecoder) : Decidable (QueueInv d) := by
  unfold QueueInv; infer_instance

/-- One externally triggered step of the stage: a public method call or the
delivery of an asynchronous continuation. -/
inductive Op where
  | opInit (cfg : AudioDecoderConfig)
  | opSetDecryptor (has : Bool)
  | opFinishInit (success : Bool)
  | opDecode (buffer : Option DecoderBuffer)
  | opDeliver (status : DecryptorStatus) (frames : List AudioBuffer)
  | opKeyAdded
  | opReset
  | opStop
  | opGetOutput
  deriving DecidableEq, Repr

/-- Run one step.  Weak-pointer-bound continuations go through their `Task`
wrappers; `Stop` and `GetDecodeOutput` always succeed. -/
def runOp (d : DecryptingAudioDecoder) :
    Op → Option (DecryptingAudioDecoder × List Event)
  | .opInit cfg => DecryptingAudioDecoder.InitializeOp d cfg
  | .opSetDecryptor has => DecryptingAudioDecoder.SetDecryptorTask d has
  | .opFinishInit success => DecryptingAudioDecoder.FinishInitializationTask d success
  | .opDecode buffer => DecryptingAudioDecoder.Decode d buffer
  | .opDeliver status frames => DecryptingAudioDecoder.DeliverFrameTask d status frames
  | .opKeyAdded => DecryptingAudioDecoder.OnKeyAddedTask d
  | .opReset => DecryptingAudioDecoder.Reset d
  | .opStop => some (DecryptingAudioDecoder.Stop d)
  | .opGetOutput => some ((DecryptingAudioDecoder.GetDecodeOutput d).2, [])

/-- Repeatedly call `GetDecodeOutput`, collecting the frames it returns, for
`n` calls or until it returns null. -/
def drainOutputs : Nat → DecryptingAudioDecoder →
    List AudioBuffer × DecryptingAudioDecoder
  | 0, d => ([], d)
  | Nat.succ n, d =>
    match DecryptingAudioDecoder.GetDecodeOutput d with
    | (none, d') => ([], d')
    | (some f, d') =>
      let (fs, d'') := drainOutputs n d'
      (f :: fs, d'')

/-- A valid encrypted stereo 48 kHz configuration, used by witnesses. -/
def cfg0 : AudioDecoderConfig :=
  { codec := 1, sample_format := .kSampleFormatF32,
    channel_layout := .CHANNEL_LAYOUT_STEREO, samples_per_second := 48000,
    extra_data := [], is_encrypted := true, valid := true }

/-- `cfg0` after `InitializeDecoder` forced the sample format to S16. -/
def cfg0S16 : AudioDecoderConfig :=
  { cfg0 with sample_format := .kSampleFormatS16 }

/-- A non-end-of-stream encrypted input buffer, used by witnesses. -/
def buf0 : DecoderBuffer :=
  { end_of_stream := false, timestamp := 0, data_size := 16, payload := 7 }

/-- An end-of-stream input buffer, used by witnesses. -/
def bufEOS : DecoderBuffer :=
  { end_of_stream := true, timestamp := 0, data_size := 0, payload := 0 }

/-- A decoded 100-frame output frame as the decryptor might hand it back,
used by witnesses. -/
def frame0 : AudioBuffer :=
  { end_of_stream := false, frame_count := 100, timestamp := 37,
    duration := 5, payload := 11 }

/-- The stage as it stands after a successful `Initialize` with `cfg0`:
idle, decryptor held, timestamp helper created for 48 kHz. -/
def dIdle : DecryptingAudioDecoder :=
  { state := .kIdle, init_cb := false, decode_cb := false, reset_cb := false,
    set_decryptor_ready_cb := false, has_decryptor := true,
    key_added_while_decode_pending := false, pending_buffer_to_decode := none,
    queued_audio_frames := [], bits_per_channel := 16,
    channel_layout := .CHANNEL_LAYOUT_STEREO, samples_per_second := 48000,
    timestamp_helper := some (AudioTimestampHelper.create 48000),
    config := cfg0S16, weak_ptrs_valid := true }

/-- `dIdle` with a decode of `buf0` in flight. -/
def dPending : DecryptingAudioDecoder :=
  { dIdle with state := .kPendingDecode, decode_cb := true,
               pending_buffer_to_decode := some buf0,
               timestamp_helper :=
                 some ⟨48000, some 0, 0⟩ }

/-- Well-formedness of the arguments of a `Decode` call beyond the state
machine preconditions: the caller passes no buffer exactly when it is
draining queued frames, and passes a buffer (with the helper initialized)
when submitting new work. -/
def DecodeArgsOk (d : DecryptingAudioDecoder)
    (buffer : Option DecoderBuffer) : Prop :=
  d.state = .kDecodeFinished ∨
    (d.state = .kIdle ∧
      ((d.queued_audio_frames ≠ [] ∧ buffer = none) ∨
       (d.queued_audio_frames = [] ∧ buffer.isSome = true ∧
        d.timestamp_helper.isSome = true)))

instance (d : DecryptingAudioDecoder) (buffer : Option DecoderBuffer) :
    Decidable (DecodeArgsOk d buffer) := by
  unfold DecodeArgsOk; infer_instance

section Theorems

open DecryptingAudioDecoder

/-- C6: for an invalid or non-encrypted config, `Initialize` runs its status
callback exactly once with the matching error, contacts the decryptor in no
way (no decryptor request, no decoder initialization), and leaves the stage
otherwise unchanged (only the freshly acquired weak pointer and the consumed
one-shot callback differ). -/
theorem C6_bad_config (d : DecryptingAudioDecoder) (cfg : AudioDecoderConfig)
    (hdc : d.decode_cb = false) (hrc : d.reset_cb = false)
    (hbad : cfg.valid = false ∨ cfg.is_encrypted = false) :
    ∃ st, InitializeOp d cfg =
        some ({ d with weak_ptrs_valid := true, init_cb := false },
              [.InitCbRun st]) ∧
      st ≠ .PIPELINE_OK ∧
      (cfg.valid = false → st = .PIPELINE_ERROR_DECODE) ∧
      (cfg.valid = true → st = .DECODER_ERROR_NOT_SUPPORTED) := by
  rcases hv : cfg.valid with _ | _
  · exact ⟨.PIPELINE_ERROR_DECODE, by simp [InitializeOp, hdc, hrc, hv], by
      simp, fun _ => rfl, by simp [hv]⟩
  · rcases hbad with h | h
    · simp [hv] at h
    · exact ⟨.DECODER_ERROR_NOT_SUPPORTED, by
        simp [InitializeOp, hdc, hrc, hv, h], by simp, by simp [hv], fun _ => rfl⟩

/-- C6 witness: the freshly constructed stage rejects an invalid config. -/
theorem C6_bad_config_witness :
    DecryptingAudioDecoder.construct.decode_cb = false ∧
    DecryptingAudioDecoder.construct.reset_cb = false ∧
    ∃ st, InitializeOp DecryptingAudioDecoder.construct
            { cfg0 with valid := false } =
        some ({ DecryptingAudioDecoder.construct with
                  weak_ptrs_valid := true, init_cb := false },
              [.InitCbRun st]) ∧
      st ≠ .PIPELINE_OK ∧
      st = .PIPELINE_ERROR_DECODE :=
  ⟨rfl, rfl, by
    obtain ⟨st, h1, h2, h3, _⟩ :=
      C6_bad_config DecryptingAudioDecoder.construct
        { cfg0 with valid := false } rfl rfl (Or.inl rfl)
    exact ⟨st, h1, h2, h3 rfl⟩⟩

/-- C9: `InitializeDecoder` always forces the sample format handed to the
decryptor's `InitializeAudioDecoder` to signed 16-bit while keeping the
configured channel layout and sample rate, and a successful initialization
publishes `bits_per_channel = kSupportedBitsPerChannel = 16` with layout and
rate taken from the configuration. -/
theorem C9_forced_s16 (d : DecryptingAudioDecoder) :
    ((InitializeDecoder d).1.config.sample_format = .kSampleFormatS16 ∧
     (InitializeDecoder d).1.config.channel_layout = d.config.channel_layout ∧
     (InitializeDecoder d).1.config.samples_per_second =
       d.config.samples_per_second ∧
     (InitializeDecoder d).2 =
       [.InitializeAudioDecoder
          { d.config with sample_format := .kSampleFormatS16 }]) ∧
    (d.state = .kPendingDecoderInit → d.init_cb = true → d.reset_cb = false →
     d.decode_cb = false →
      ∃ d', FinishInitialization d true =
          some (d', [.RegisterNewKeyCb, .InitCbRun .PIPELINE_OK]) ∧
        d'.bits_per_channel = kSupportedBitsPerChannel ∧
        kSupportedBitsPerChannel = 16 ∧
        d'.channel_layout = d.config.channel_layout ∧
        d'.samples_per_second = d.config.samples_per_second ∧
        d'.state = .kIdle) := by
  refine ⟨⟨rfl, rfl, rfl, rfl⟩, fun hs hi hr hc => ?_⟩
  refine ⟨{ UpdateDecoderConfig d with state := .kIdle, init_cb := false },
          ?_, rfl, rfl, rfl, rfl, rfl⟩
  simp [FinishInitialization, hs, hi, hr, hc]

/-- C9 witness: a stage in `kPendingDecoderInit` with `cfg0S16` installed
finishes initialization reporting 16 bits per channel, stereo, 48 kHz. -/
theorem C9_forced_s16_witness :
    (InitializeDecoder { dIdle with config := cfg0 }).1.config.sample_format =
      .kSampleFormatS16 ∧
    ({ dIdle with state := .kPendingDecoderInit,
                  init_cb := true } : DecryptingAudioDecoder).state =
      .kPendingDecoderInit ∧
    ∃ d', FinishInitialization
            { dIdle with state := .kPendingDecoderInit, init_cb := true } true =
        some (d', [.RegisterNewKeyCb, .InitCbRun .PIPELINE_OK]) ∧
      d'.bits_per_channel = kSupportedBitsPerChannel ∧
      kSupportedBitsPerChannel = 16 ∧
      d'.channel_layout =
        ({ dIdle with state := .kPendingDecoderInit,
                      init_cb := true } : DecryptingAudioDecoder).config.channel_layout ∧
      d'.samples_per_second =
        ({ dIdle with state := .kPendingDecoderInit,
                      init_cb := true } : DecryptingAudioDecoder).config.samples_per_second ∧
      d'.state = .kIdle :=
  ⟨(C9_forced_s16 { dIdle with config := cfg0 }).1.1, rfl,
   (C9_forced_s16 _).2 rfl rfl rfl rfl⟩

/-- Draining lemma: `drainOutputs` run for one more call than the queue
length returns exactly the queued frames in order and empties the queue. -/
theorem drainOutputs_spec (q : List AudioBuffer) :
    ∀ d : DecryptingAudioDecoder, d.queued_audio_frames = q →
      drainOutputs (q.length + 1) d = (q, { d with queued_audio_frames := [] }) := by
  induction q with
  | nil =>
    intro d hq
    have : ({ d with queued_audio_frames := [] } : DecryptingAudioDecoder) = d := by
      rw [← hq]
    rw [this]
    simp [drainOutputs, GetDecodeOutput, hq]
  | cons f rest ih =>
    intro d hq
    have h1 : GetDecodeOutput d = (some f, { d with queued_audio_frames := rest }) := by
      simp [GetDecodeOutput, hq]
    have h2 := ih { d with queued_audio_frames := rest } rfl
    have h3 : drainOutputs ((f :: rest).length + 1) d =
        (f :: (drainOutputs (rest.length + 1)
                 { d with queued_audio_frames := rest }).1,
         (drainOutputs (rest.length + 1)
            { d with queued_audio_frames := rest }).2) := by
      simp [drainOutputs, h1]
    rw [h3, h2]

/-- C10: `GetDecodeOutput` returns null on an empty queue and otherwise pops
and returns the front frame touching nothing else; repeated calls drain the
queue in FIFO order and then yield null. -/
theorem C10_get_decode_output (d : DecryptingAudioDecoder) :
    (d.queued_audio_frames = [] → GetDecodeOutput d = (none, d)) ∧
    (∀ f rest, d.queued_audio_frames = f :: rest →
      GetDecodeOutput d = (some f, { d with queued_audio_frames := rest })) ∧
    drainOutputs (d.queued_audio_frames.length + 1) d =
      (d.queued_audio_frames, { d with queued_audio_frames := [] }) ∧
    (GetDecodeOutput { d with queued_audio_frames := [] }).1 = none := by
  refine ⟨fun hq => by simp [GetDecodeOutput, hq],
          fun f rest hq => by simp [GetDecodeOutput, hq],
          drainOutputs_spec d.queued_audio_frames d rfl,
          by simp [GetDecodeOutput]⟩

/-- C10 witness: a stage with two queued frames drains them in order. -/
theorem C10_get_decode_output_witness :
    ({ dIdle with queued_audio_frames := [frame0, { frame0 with payload := 12 }] }
       : DecryptingAudioDecoder).queued_audio_frames =
        [frame0, { frame0 with payload := 12 }] ∧
    GetDecodeOutput
        { dIdle with queued_audio_frames := [frame0, { frame0 with payload := 12 }] } =
      (some frame0,
       { dIdle with queued_audio_frames := [{ frame0 with payload := 12 }] }) ∧
    drainOutputs 3
        { dIdle with queued_audio_frames := [frame0, { frame0 with payload := 12 }] } =
      ([frame0, { frame0 with payload := 12 }],
       { dIdle with queued_audio_frames := [] }) :=
  ⟨rfl,
   (C10_get_decode_output _).2.1 frame0 [{ frame0 with payload := 12 }] rfl,
   (C10_get_decode_output
      { dIdle with queued_audio_frames := [frame0, { frame0 with payload := 12 }] }).2.2.1⟩

/-- Every decryptor response delivered with no reset pending runs the
caller's decode callback at most once, and not at all when the callback is
still outstanding afterwards. -/
theorem deliverFrame_decodeCb_once (d : DecryptingAudioDecoder)
    (status : DecryptorStatus) (frames : List AudioBuffer)
    (d' : DecryptingAudioDecoder) (evs : List Event)
    (hr : d.reset_cb = false)
    (h : DeliverFrame d status frames = some (d', evs)) :
    decodeCbCount evs ≤ 1 ∧ (d'.decode_cb = true → decodeCbCount evs = 0) := by
  rcases hpb : d.pending_buffer_to_decode with _ | b <;>
  rcases hth : d.timestamp_helper with _ | th <;>
  rcases hqq : d.queued_audio_frames with _ | ⟨f0, fs0⟩ <;>
  cases hic : d.init_cb <;>
  cases status <;>
  simp_all [DeliverFrame, DoReset, DecodePendingBuffer, EnqueueFrames,
            decodeCbCount, isDecodeCbRun]
  all_goals repeat' split at h
  all_goals try simp_all [decodeCbCount, isDecodeCbRun]
  all_goals obtain ⟨-, -, -, rfl, rfl⟩ := h
  all_goals simp [decodeCbCount, isDecodeCbRun]

/-- C1: when the decryptor answers NoKey (and no Reset is pending, the case
the short-circuit of C2 would override), the submitted buffer is retained as
the pending buffer; if the key-arrival flag was latched the stage resubmits
the same buffer at once, staying in `kPendingDecode` without running the
caller's decode callback; otherwise it moves to `kWaitingForKey` without
running the callback, and a later key arrival moves it back to
`kPendingDecode` and resubmits the buffer; any response runs the decode
callback at most once. -/
theorem C1_nokey_retry (d : DecryptingAudioDecoder) (b : DecoderBuffer)
    (hs : d.state = .kPendingDecode) (hcb : d.decode_cb = true)
    (hb : d.pending_buffer_to_decode = some b)
    (hq : d.queued_audio_frames = [])
    (hr : d.reset_cb = false) :
    ∃ d' evs, DeliverFrame d .kNoKey [] = some (d', evs) ∧
      d'.pending_buffer_to_decode = some b ∧
      decodeCbCount evs = 0 ∧ d'.decode_cb = true ∧
      d'.key_added_while_decode_pending = false ∧
      (d.key_added_while_decode_pending = true →
        d'.state = .kPendingDecode ∧ evs = [.DecryptAndDecodeAudio b]) ∧
      (d.key_added_while_decode_pending = false →
        d'.state = .kWaitingForKey ∧ evs = [] ∧
        OnKeyAdded d' =
          some ({ d' with state := .kPendingDecode },
                [.DecryptAndDecodeAudio b])) ∧
      (∀ st fr d2 evs2, DeliverFrame d st fr = some (d2, evs2) →
        decodeCbCount evs2 ≤ 1 ∧
          (d2.decode_cb = true → decodeCbCount evs2 = 0)) := by
  cases hk : d.key_added_while_decode_pending
  case false =>
    refine ⟨{ d with key_added_while_decode_pending := false,
                     pending_buffer_to_decode := some b,
                     state := .kWaitingForKey }, [],
            ?_, rfl, rfl, hcb, rfl, ?_, ?_,
            fun st fr d2 evs2 h => deliverFrame_decodeCb_once d st fr d2 evs2 hr h⟩
    · simp [DeliverFrame, hs, hcb, hb, hq, hr, hk]
    · exact fun hcontra => Bool.noConfusion hcontra
    · intro _
      refine ⟨rfl, rfl, ?_⟩
      simp [OnKeyAdded, DecodePendingBuffer]
  case true =>
    refine ⟨{ d with key_added_while_decode_pending := false,
                     pending_buffer_to_decode := some b },
            [.DecryptAndDecodeAudio b],
            ?_, rfl, by simp [decodeCbCount, isDecodeCbRun], hcb, rfl,
            fun _ => ⟨hs, rfl⟩, ?_,
            fun st fr d2 evs2 h => deliverFrame_decodeCb_once d st fr d2 evs2 hr h⟩
    · simp [DeliverFrame, DecodePendingBuffer, hs, hcb, hb, hq, hr, hk]
    · exact fun hcontra => Bool.noConfusion hcontra

/-- C1 witness: the stage with a decode of `buf0` in flight and no key
latched answers NoKey by parking in `kWaitingForKey` with the buffer kept. -/
theorem C1_nokey_retry_witness :
    dPending.state = .kPendingDecode ∧ dPending.decode_cb = true ∧
    dPending.pending_buffer_to_decode = some buf0 ∧
    dPending.reset_cb = false ∧
    ∃ d' evs, DeliverFrame dPending .kNoKey [] = some (d', evs) ∧
      d'.pending_buffer_to_decode = some buf0 ∧
      decodeCbCount evs = 0 ∧ d'.decode_cb = true ∧
      (dPending.key_added_while_decode_pending = false →
        d'.state = .kWaitingForKey ∧ evs = [] ∧
        OnKeyAdded d' =
          some ({ d' with state := .kPendingDecode },
                [.DecryptAndDecodeAudio buf0])) := by
  refine ⟨rfl, rfl, rfl, rfl, ?_⟩
  obtain ⟨d', evs, h1, h2, h3, h4, _, _, h7, _⟩ :=
    C1_nokey_retry dPending buf0 rfl rfl rfl rfl rfl
  exact ⟨d', evs, h1, h2, h3, h4, h7⟩

/-- C2: a `Reset` arriving while a decode is in `kPendingDecode` only asks
the decryptor to reset and defers its own completion (the reset callback is
still outstanding, no events beyond the decryptor reset); the in-flight
response then — whatever its status and frames — aborts the caller's decode,
discards the pending buffer, and runs the deferred reset, leaving the stage
`kIdle` with the timestamp base cleared, so the next accepted buffer reseeds
the base from its own timestamp. -/
theorem C2_reset_deferred (d : DecryptingAudioDecoder) (b : DecoderBuffer)
    (h : AudioTimestampHelper)
    (hs : d.state = .kPendingDecode) (hcb : d.decode_cb = true)
    (hi : d.init_cb = false) (hr : d.reset_cb = false)
    (hd : d.has_decryptor = true)
    (hb : d.pending_buffer_to_decode = some b)
    (hq : d.queued_audio_frames = [])
    (hth : d.timestamp_helper = some h) :
    ∃ d1, Reset d = some (d1, [.ResetDecoder]) ∧
      d1.reset_cb = true ∧ d1.decode_cb = true ∧ d1.state = .kPendingDecode ∧
      ∀ status frames, ∃ d2,
        DeliverFrame d1 status frames =
          some (d2, [.DecodeCbRun .kAborted none, .ResetCbRun]) ∧
        d2.state = .kIdle ∧ d2.pending_buffer_to_decode = none ∧
        d2.decode_cb = false ∧ d2.reset_cb = false ∧
        d2.timestamp_helper =
          some (AudioTimestampHelper.SetBaseTimestamp h none) ∧
        ∀ nb : DecoderBuffer, nb.end_of_stream = false →
          ∃ d3 evs3, Decode d2 (some nb) = some (d3, evs3) ∧
            d3.timestamp_helper =
              some (AudioTimestampHelper.SetBaseTimestamp
                      (AudioTimestampHelper.SetBaseTimestamp h none)
                      (some nb.timestamp)) := by
  refine ⟨{ d with reset_cb := true }, ?_, rfl, hcb, hs, ?_⟩
  · simp [Reset, hs, hi, hr, hd, hcb]
  · intro status frames
    refine ⟨{ d with reset_cb := false, decode_cb := false,
                     key_added_while_decode_pending := false,
                     pending_buffer_to_decode := none,
                     timestamp_helper :=
                       some (AudioTimestampHelper.SetBaseTimestamp h none),
                     state := .kIdle }, ?_, rfl, rfl, rfl, rfl, rfl, ?_⟩
    · simp [DeliverFrame, DoReset, hs, hcb, hb, hq, hi, hth]
    · intro nb hnb
      refine ⟨{ d with reset_cb := false, decode_cb := true,
                       key_added_while_decode_pending := false,
                       pending_buffer_to_decode := some nb,
                       timestamp_helper :=
                         some (AudioTimestampHelper.SetBaseTimestamp
                                 (AudioTimestampHelper.SetBaseTimestamp h none)
                                 (some nb.timestamp)),
                       state := .kPendingDecode },
              [.DecryptAndDecodeAudio nb], ?_, rfl⟩
      simp [Decode, DecodePendingBuffer, hq, hnb,
            AudioTimestampHelper.SetBaseTimestamp]

/-- C2 witness: resetting `dPending` defers, and a success response with one
frame is aborted and completes the reset. -/
theorem C2_reset_deferred_witness :
    dPending.state = .kPendingDecode ∧ dPending.init_cb = false ∧
    dPending.has_decryptor = true ∧
    ∃ d1, Reset dPending = some (d1, [.ResetDecoder]) ∧
      d1.reset_cb = true ∧
      ∃ d2, DeliverFrame d1 .kSuccess [frame0] =
          some (d2, [.DecodeCbRun .kAborted none, .ResetCbRun]) ∧
        d2.state = .kIdle ∧
        d2.timestamp_helper =
          some (AudioTimestampHelper.SetBaseTimestamp ⟨48000, some 0, 0⟩ none) := by
  refine ⟨rfl, rfl, rfl, ?_⟩
  obtain ⟨d1, h1, h2, _, _, h5⟩ :=
    C2_reset_deferred dPending buf0 ⟨48000, some 0, 0⟩
      rfl rfl rfl rfl rfl rfl rfl rfl
  obtain ⟨d2, g1, g2, _, _, _, g6, _⟩ := h5 .kSuccess [frame0]
  exact ⟨d1, h1, h2, d2, g1, g2, g6⟩

/-- C5: a NeedMoreData response to an end-of-stream buffer finishes the
stream (state `kDecodeFinished`, callback gets an end-of-stream frame); to a
regular buffer it returns to `kIdle` delivering a not-enough-data result with
no frame; and every `Decode` made in `kDecodeFinished` completes at once with
an end-of-stream frame and no decryptor contact. -/
theorem C5_need_more_data (d : DecryptingAudioDecoder) (b : DecoderBuffer)
    (hs : d.state = .kPendingDecode) (hcb : d.decode_cb = true)
    (hb : d.pending_buffer_to_decode = some b)
    (hq : d.queued_audio_frames = [])
    (hr : d.reset_cb = false) :
    (b.end_of_stream = true →
      DeliverFrame d .kNeedMoreData [] =
        some ({ d with key_added_while_decode_pending := false,
                       pending_buffer_to_decode := none,
                       state := .kDecodeFinished, decode_cb := false },
              [.DecodeCbRun .kOk (some AudioBuffer.CreateEOSBuffer)])) ∧
    (b.end_of_stream = false →
      DeliverFrame d .kNeedMoreData [] =
        some ({ d with key_added_while_decode_pending := false,
                       pending_buffer_to_decode := none,
                       state := .kIdle, decode_cb := false },
              [.DecodeCbRun .kNotEnoughData none])) ∧
    (∀ (d2 : DecryptingAudioDecoder) (buffer : Option DecoderBuffer),
      d2.state = .kDecodeFinished → d2.decode_cb = false →
      Decode d2 buffer =
        some ({ d2 with decode_cb := false },
              [.DecodeCbRun .kOk (some AudioBuffer.CreateEOSBuffer)]) ∧
      submitCount [Event.DecodeCbRun .kOk (some AudioBuffer.CreateEOSBuffer)]
        = 0) := by
  refine ⟨fun heos => ?_, fun heos => ?_, fun d2 buffer hs2 hc2 => ⟨?_, rfl⟩⟩
  · simp [DeliverFrame, hs, hcb, hb, hq, hr, heos]
  · simp [DeliverFrame, hs, hcb, hb, hq, hr, heos]
  · simp [Decode, hs2, hc2]

/-- C5 witness: an end-of-stream buffer in flight plus NeedMoreData finishes
the stream, after which a further `Decode` is answered immediately. -/
theorem C5_need_more_data_witness :
    ({ dPending with pending_buffer_to_decode := some bufEOS }
        : DecryptingAudioDecoder).state = .kPendingDecode ∧
    bufEOS.end_of_stream = true ∧
    DeliverFrame { dPending with pending_buffer_to_decode := some bufEOS }
        .kNeedMoreData [] =
      some ({ dPending with pending_buffer_to_decode := none,
                            key_added_while_decode_pending := false,
                            state := .kDecodeFinished, decode_cb := false },
            [.DecodeCbRun .kOk (some AudioBuffer.CreateEOSBuffer)]) ∧
    Decode { dPending with pending_buffer_to_decode := none,
                           key_added_while_decode_pending := false,
                           state := .kDecodeFinished, decode_cb := false }
        (some buf0) =
      some ({ dPending with pending_buffer_to_decode := none,
                            key_added_while_decode_pending := false,
                            state := .kDecodeFinished, decode_cb := false },
            [.DecodeCbRun .kOk (some AudioBuffer.CreateEOSBuffer)]) := by
  obtain ⟨h1, _, h3⟩ :=
    C5_need_more_data { dPending with pending_buffer_to_decode := some bufEOS }
      bufEOS rfl rfl rfl rfl rfl
  exact ⟨rfl, rfl, h1 rfl,
         (h3 { dPending with pending_buffer_to_decode := none,
                             key_added_while_decode_pending := false,
                             state := .kDecodeFinished, decode_cb := false }
            (some buf0) rfl rfl).1⟩

/-- C3: `Stop` succeeds from every state; it invalidates the weak pointers
(so each pending asynchronous continuation delivered afterwards is dropped
without running and without effect), forcibly completes in order whichever of
the decryptor-ready wait, `Initialize`, `Decode` (aborted) and `Reset`
callbacks are still outstanding — each exactly once, as shown by the exact
event list — releases the pending buffer, and leaves the state `kStopped`
with no callback outstanding. -/
theorem C3_stop_total (d : DecryptingAudioDecoder) :
    (Stop d).1.state = .kStopped ∧
    (Stop d).1.pending_buffer_to_decode = none ∧
    (Stop d).1.weak_ptrs_valid = false ∧
    (Stop d).1.init_cb = false ∧ (Stop d).1.decode_cb = false ∧
    (Stop d).1.reset_cb = false ∧
    (Stop d).2 =
      (if d.has_decryptor then [Event.DeinitializeDecoder] else []) ++
      (if d.set_decryptor_ready_cb then [Event.RunSetDecryptorReadyCbNull]
       else []) ++
      (if d.init_cb then [Event.InitCbRun .DECODER_ERROR_NOT_SUPPORTED]
       else []) ++
      (if d.decode_cb then [Event.DecodeCbRun .kAborted none] else []) ++
      (if d.reset_cb then [Event.ResetCbRun] else []) ++
      [Event.PostStopClosure] ∧
    (∀ st fr, DeliverFrameTask (Stop d).1 st fr = some ((Stop d).1, [])) ∧
    OnKeyAddedTask (Stop d).1 = some ((Stop d).1, []) ∧
    (∀ has, SetDecryptorTask (Stop d).1 has = some ((Stop d).1, [])) ∧
    (∀ success,
      FinishInitializationTask (Stop d).1 success = some ((Stop d).1, [])) := by
  cases h1 : d.has_decryptor <;> cases h2 : d.set_decryptor_ready_cb <;>
  cases h3 : d.init_cb <;> cases h4 : d.decode_cb <;> cases h5 : d.reset_cb <;>
    simp [Stop, DeliverFrameTask, OnKeyAddedTask, SetDecryptorTask,
          FinishInitializationTask, h1, h2, h3, h4, h5]

/-- C7: `Decode` outside `kIdle`/`kDecodeFinished`, or while a decode
callback is already outstanding, is a fatal contract violation (the run
aborts rather than returning an error); under the preconditions the
violation branch is unreachable, at most one decrypt request is submitted,
and once one is in flight any further `Decode` is itself fatal. -/
theorem C7_single_flight (d : DecryptingAudioDecoder)
    (buffer : Option DecoderBuffer) :
    (¬(d.state = .kIdle ∨ d.state = .kDecodeFinished) →
      Decode d buffer = none) ∧
    (d.decode_cb = true → Decode d buffer = none) ∧
    (DecodeArgsOk d buffer → d.decode_cb = false →
      ∃ d' evs, Decode d buffer = some (d', evs) ∧ submitCount evs ≤ 1 ∧
        ∀ b, Event.DecryptAndDecodeAudio b ∈ evs →
          d'.state = .kPendingDecode ∧ d'.decode_cb = true ∧
          ∀ buffer2, Decode d' buffer2 = none) := by
  refine ⟨fun hns => by simp [Decode, hns],
          fun hdc => by simp [Decode, hdc],
          fun hok hdc => ?_⟩
  rcases hok with hfin | ⟨hidle, hrest⟩
  · refine ⟨{ d with decode_cb := false },
            [.DecodeCbRun .kOk (some AudioBuffer.CreateEOSBuffer)],
            ?_, by simp [submitCount, isSubmit], ?_⟩
    · simp [Decode, hfin, hdc]
    · intro b hmem; simp at hmem
  · rcases hrest with ⟨hne, hbn⟩ | ⟨hqe, hbs, hts⟩
    · rcases hq : d.queued_audio_frames with _ | ⟨f, fs⟩
      · exact absurd hq hne
      · refine ⟨{ d with decode_cb := false, queued_audio_frames := fs },
                [.DecodeCbRun .kOk (some f)],
                ?_, by simp [submitCount, isSubmit], ?_⟩
        · subst hbn
          simp [Decode, hidle, hdc, hq]
        · intro b hmem; simp at hmem
    · rcases buffer with _ | buf
      · simp at hbs
      rcases hth : d.timestamp_helper with _ | th
      · rw [hth] at hts; simp at hts
      refine ⟨{ d with decode_cb := true,
                       timestamp_helper := some
                         (if th.base_timestamp = none ∧
                             buf.end_of_stream = false then
                            AudioTimestampHelper.SetBaseTimestamp th
                              (some buf.timestamp)
                          else th),
                       pending_buffer_to_decode := some buf,
                       state := .kPendingDecode },
              [.DecryptAndDecodeAudio buf], ?_,
              by simp [submitCount, isSubmit], ?_⟩
      · simp [Decode, DecodePendingBuffer, hidle, hdc, hqe, hth]
      · intro b hmem
        refine ⟨rfl, rfl, fun buffer2 => by simp [Decode]⟩

/-- C7 witness: an idle stage accepts one decode of `buf0`, submits exactly
one decrypt request, and a second `Decode` while it is in flight is fatal. -/
theorem C7_single_flight_witness :
    DecodeArgsOk dIdle (some buf0) ∧ dIdle.decode_cb = false ∧
    ∃ d' evs, Decode dIdle (some buf0) = some (d', evs) ∧
      submitCount evs ≤ 1 ∧
      ∀ b, Event.DecryptAndDecodeAudio b ∈ evs →
        d'.state = .kPendingDecode ∧ d'.decode_cb = true ∧
        ∀ buffer2, Decode d' buffer2 = none :=
  ⟨by decide, rfl,
   (C7_single_flight dIdle (some buf0)).2.2 (by decide) rfl⟩

/-- Every reachable step preserves the queue invariant (the queue is empty
whenever the stage is in `kPendingDecode` or `kWaitingForKey`), and a step
that submits a decrypt request leaves the queue empty. -/
theorem runOp_queue (d : DecryptingAudioDecoder) (o : Op)
    (d' : DecryptingAudioDecoder) (evs : List Event)
    (hJ : QueueInv d) (h : runOp d o = some (d', evs)) :
    QueueInv d' ∧ (1 ≤ submitCount evs → d'.queued_audio_frames = []) := by
  cases o
  case opInit cfg =>
    cases hdc : d.decode_cb <;> cases hrc : d.reset_cb <;>
    cases hv : cfg.valid <;> cases he : cfg.is_encrypted <;>
    by_cases hst : d.state = State.kUninitialized <;>
    cases hhd : d.has_decryptor <;>
    simp [runOp, InitializeOp, InitializeDecoder, hdc, hrc, hv, he, hst, hhd] at h
    all_goals obtain ⟨rfl, rfl⟩ := h
    all_goals refine ⟨fun hx => ?_, fun hx => ?_⟩
    all_goals first
      | rfl
      | (exact hJ hx)
      | (simp [submitCount, isSubmit] at hx; done)
      | (simp at hx; done)
      | assumption
      | simp_all [QueueInv, submitCount, isSubmit]
  case opSetDecryptor has =>
    cases hw : d.weak_ptrs_valid <;>
    by_cases hst : d.state = State.kDecryptorRequested <;>
    cases hic : d.init_cb <;> cases hsr : d.set_decryptor_ready_cb <;>
    cases hasx : has <;>
    simp [runOp, SetDecryptorTask, SetDecryptor, InitializeDecoder,
          hw, hst, hic, hsr, hasx] at h
    all_goals obtain ⟨rfl, rfl⟩ := h
    all_goals refine ⟨fun hx => ?_, fun hx => ?_⟩
    all_goals first
      | rfl
      | (exact hJ hx)
      | (simp [submitCount, isSubmit] at hx; done)
      | (simp at hx; done)
      | assumption
      | simp_all [QueueInv, submitCount, isSubmit]
  case opFinishInit success =>
    cases hw : d.weak_ptrs_valid <;>
    by_cases hst : d.state = State.kPendingDecoderInit <;>
    cases hic : d.init_cb <;> cases hrc : d.reset_cb <;>
    cases hdc : d.decode_cb <;> cases hsu : success <;>
    simp [runOp, FinishInitializationTask, FinishInitialization,
          UpdateDecoderConfig, hw, hst, hic, hrc, hdc, hsu] at h
    all_goals obtain ⟨rfl, rfl⟩ := h
    all_goals refine ⟨fun hx => ?_, fun hx => ?_⟩
    all_goals first
      | rfl
      | (exact hJ hx)
      | (simp [submitCount, isSubmit] at hx; done)
      | (simp at hx; done)
      | assumption
      | simp_all [QueueInv, submitCount, isSubmit]
  case opDecode buffer =>
    by_cases hst1 : d.state = State.kIdle <;>
    by_cases hst2 : d.state = State.kDecodeFinished <;>
    cases hdc : d.decode_cb <;>
    rcases hq : d.queued_audio_frames with _ | ⟨f0, fs0⟩ <;>
    rcases hbuf : buffer with _ | buf <;>
    rcases hth : d.timestamp_helper with _ | th <;>
    simp [runOp, Decode, DecodePendingBuffer, hst1, hst2, hdc, hq, hbuf, hth] at h
    all_goals obtain ⟨rfl, rfl⟩ := h
    all_goals refine ⟨fun hx => ?_, fun hx => ?_⟩
    all_goals first
      | rfl
      | (exact hJ hx)
      | (simp [submitCount, isSubmit] at hx; done)
      | (simp at hx; done)
      | assumption
      | simp_all [QueueInv, submitCount, isSubmit]
  case opDeliver status frames =>
    cases hw : d.weak_ptrs_valid
    · simp [runOp, DeliverFrameTask, hw] at h
      obtain ⟨rfl, rfl⟩ := h
      exact ⟨hJ, by simp [submitCount, isSubmit]⟩
    · simp only [runOp, DeliverFrameTask, hw, if_true] at h
      by_cases hst : d.state = State.kPendingDecode
      swap
      · simp [DeliverFrame, hst] at h
      cases hdc : d.decode_cb
      · simp [DeliverFrame, hst, hdc] at h
      rcases hpb : d.pending_buffer_to_decode with _ | b
      · simp [DeliverFrame, hst, hdc, hpb] at h
      rcases hq : d.queued_audio_frames with _ | ⟨f0, fs0⟩
      swap
      · simp [DeliverFrame, hst, hdc, hpb, hq] at h
      cases hrc : d.reset_cb <;> cases hic : d.init_cb <;>
      rcases hth : d.timestamp_helper with _ | th <;>
      cases hk : d.key_added_while_decode_pending <;>
      cases heos : b.end_of_stream <;> cases status <;>
      rcases hfr : frames with _ | ⟨fr0, frs⟩ <;>
      simp [DeliverFrame, DoReset, DecodePendingBuffer,
            hst, hdc, hpb, hq, hrc, hic, hth, hk, heos, hfr] at h
      all_goals repeat' split at h
      all_goals try simp at h
      all_goals obtain ⟨rfl, rfl⟩ := h
      all_goals refine ⟨fun hx => ?_, fun hx => ?_⟩
      all_goals first
        | rfl
        | (exact hJ hx)
        | (simp [submitCount, isSubmit] at hx; done)
        | (simp at hx; done)
        | assumption
        | simp_all [QueueInv, submitCount, isSubmit]
  case opKeyAdded =>
    cases hw : d.weak_ptrs_valid <;>
    by_cases h1 : d.state = State.kPendingDecode <;>
    by_cases h2 : d.state = State.kWaitingForKey <;>
    rcases hpb : d.pending_buffer_to_decode with _ | b <;>
    simp [runOp, OnKeyAddedTask, OnKeyAdded, DecodePendingBuffer,
          hw, h1, h2, hpb] at h
    all_goals obtain ⟨rfl, rfl⟩ := h
    all_goals refine ⟨fun hx => ?_, fun hx => ?_⟩
    all_goals first
      | rfl
      | (exact hJ hx)
      | (exact hJ (Or.inl h1))
      | (exact hJ (Or.inr h2))
      | (simp [submitCount, isSubmit] at hx; done)
      | (simp at hx; done)
      | assumption
      | simp_all [QueueInv, submitCount, isSubmit]
  case opReset =>
    by_cases hid : d.state = State.kIdle <;>
    by_cases hpd : d.state = State.kPendingDecode <;>
    by_cases hwk : d.state = State.kWaitingForKey <;>
    by_cases hdf : d.state = State.kDecodeFinished <;>
    cases hic : d.init_cb <;> cases hrc : d.reset_cb <;>
    cases hhd : d.has_decryptor <;>
    cases hdc : d.decode_cb <;>
    rcases hth : d.timestamp_helper with _ | th <;>
    simp [runOp, Reset, DoReset, hid, hpd, hwk, hdf, hic, hrc, hhd, hdc, hth] at h
    all_goals obtain ⟨rfl, rfl⟩ := h
    all_goals refine ⟨fun hx => ?_, fun hx => ?_⟩
    all_goals first
      | rfl
      | (exact hJ hx)
      | (simp [submitCount, isSubmit] at hx; done)
      | (simp at hx; done)
      | assumption
      | simp_all [QueueInv, submitCount, isSubmit]
  case opStop =>
    cases h1 : d.has_decryptor <;> cases h2 : d.set_decryptor_ready_cb <;>
    cases h3 : d.init_cb <;> cases h4 : d.decode_cb <;> cases h5 : d.reset_cb <;>
    simp [runOp, Stop, h1, h2, h3, h4, h5] at h
    all_goals obtain ⟨rfl, rfl⟩ := h
    all_goals refine ⟨fun hx => ?_, fun hx => ?_⟩
    all_goals first
      | rfl
      | (exact hJ hx)
      | (simp [submitCount, isSubmit] at hx; done)
      | (simp at hx; done)
      | assumption
      | simp_all [QueueInv, submitCount, isSubmit]
  case opGetOutput =>
    rcases hq : d.queued_audio_frames with _ | ⟨f0, fs0⟩ <;>
    simp [runOp, GetDecodeOutput, hq] at h
    all_goals obtain ⟨rfl, rfl⟩ := h
    all_goals refine ⟨fun hx => ?_, fun hx => ?_⟩
    all_goals first
      | rfl
      | (exact hJ hx)
      | (have hcontra := hJ hx; rw [hq] at hcontra; simp at hcontra; done)
      | (simp [submitCount, isSubmit] at hx; done)
      | (simp at hx; done)
      | assumption
      | simp_all [QueueInv, submitCount, isSubmit]

/-- C8: the output frame queue is a FIFO: a `Decode` that finds it non-empty
pops and returns the front frame without submitting anything; delivery of a
decryptor response asserts the queue is empty (non-empty is fatal); the
invariant holds initially and is preserved by every step, and any step that
submits a new decrypt request to the decryptor leaves the queue empty. -/
theorem C8_queue_fifo (d : DecryptingAudioDecoder) (hJ : QueueInv d) :
    (∀ f rest, d.state = .kIdle → d.decode_cb = false →
      d.queued_audio_frames = f :: rest →
      Decode d none =
        some ({ d with decode_cb := false, queued_audio_frames := rest },
              [.DecodeCbRun .kOk (some f)])) ∧
    (d.queued_audio_frames ≠ [] →
      ∀ st fr, DeliverFrame d st fr = none) ∧
    QueueInv DecryptingAudioDecoder.construct ∧
    (∀ o d' evs, runOp d o = some (d', evs) →
      QueueInv d' ∧ (1 ≤ submitCount evs → d'.queued_audio_frames = [])) := by
  refine ⟨?_, ?_, by decide, fun o d' evs h => runOp_queue d o d' evs hJ h⟩
  · intro f rest hs hdc hq
    simp [Decode, hs, hdc, hq]
  · intro hne st fr
    rcases hq : d.queued_audio_frames with _ | ⟨f, fs⟩
    · exact absurd hq hne
    · rcases hpb : d.pending_buffer_to_decode with _ | b <;>
        simp [DeliverFrame, hq, hpb]

/-- C8 witness: with one queued frame, `Decode` pops it without submitting,
and a decryptor response delivered in that state is fatal. -/
theorem C8_queue_fifo_witness :
    QueueInv { dIdle with queued_audio_frames := [frame0] } ∧
    Decode { dIdle with queued_audio_frames := [frame0] } none =
      some ({ dIdle with decode_cb := false, queued_audio_frames := [] },
            [.DecodeCbRun .kOk (some frame0)]) ∧
    (∀ st fr,
      DeliverFrame { dIdle with queued_audio_frames := [frame0] } st fr =
        none) ∧
    QueueInv DecryptingAudioDecoder.construct := by
  have hc := C8_queue_fifo { dIdle with queued_audio_frames := [frame0] }
    (by decide)
  exact ⟨by decide, hc.1 frame0 [] rfl rfl rfl,
         fun st fr => hc.2.1 (by simp) st fr, hc.2.2.1⟩

/-- The stamping loop of `EnqueueFrames` produces exactly the reference
timeline determined by the helper's base, accumulated frame count and sample
rate — the input frames' own timestamps and durations play no part — and
advances the helper by the total frame count. -/
theorem enqueueLoop_timeline (frames : List AudioBuffer) :
    ∀ (h : AudioTimestampHelper) (b : ℚ), h.base_timestamp = some b →
    ∀ out h', enqueueLoop h frames = some (out, h') →
      out.map (fun f => (f.timestamp, f.duration)) =
        timeline (b + (h.frame_count : ℚ) / (h.samples_per_second : ℚ))
          h.samples_per_second (frames.map (fun f => f.frame_count)) ∧
      (∀ f ∈ out,
        f.duration = (f.frame_count : ℚ) / (h.samples_per_second : ℚ)) ∧
      h' = { h with frame_count :=
               h.frame_count + (frames.map (fun f => f.frame_count)).sum } := by
  induction frames with
  | nil =>
    intro h b hb out h' heq
    simp [enqueueLoop] at heq
    obtain ⟨rfl, rfl⟩ := heq
    refine ⟨by simp [timeline], by simp, ?_⟩
    cases h
    simp
  | cons f fs ih =>
    intro h b hb out h' heq
    have hgt : AudioTimestampHelper.GetTimestamp h =
        some (b + (h.frame_count : ℚ) / (h.samples_per_second : ℚ)) := by
      simp [AudioTimestampHelper.GetTimestamp, hb]
    cases heos : f.end_of_stream
    case true => simp only [enqueueLoop, heos] at heq; simp at heq
    case false =>
      by_cases hfc : f.frame_count = 0
      · simp only [enqueueLoop, heos, hfc] at heq; simp at heq
      · rcases hrec : enqueueLoop (AudioTimestampHelper.AddFrames h f.frame_count) fs
          with _ | ⟨fs', h''⟩
        · simp only [enqueueLoop, heos, hfc, hgt, hrec] at heq
          simp [hfc] at heq
        · simp only [enqueueLoop, heos, hfc, hgt, hrec] at heq
          simp [hfc] at heq
          obtain ⟨rfl, rfl⟩ := heq
          obtain ⟨ih1, ih2, ih3⟩ :=
            ih (AudioTimestampHelper.AddFrames h f.frame_count) b
              (by simp [AudioTimestampHelper.AddFrames, hb]) fs' h'' hrec
          simp [AudioTimestampHelper.AddFrames] at ih1 ih2 ih3
          refine ⟨?_, ?_, ?_⟩
          · simp only [List.map_cons, timeline]
            have harg : b + ((h.frame_count : ℚ) + (f.frame_count : ℚ)) /
                  (h.samples_per_second : ℚ) =
                b + (h.frame_count : ℚ) / (h.samples_per_second : ℚ) +
                  (f.frame_count : ℚ) / (h.samples_per_second : ℚ) := by
              ring
            rw [harg] at ih1
            rw [ih1]
            simp [AudioTimestampHelper.GetFrameDuration]
          · intro g hg
            rcases List.mem_cons.1 hg with rfl | hg'
            · simp [AudioTimestampHelper.GetFrameDuration]
            · exact ih2 g hg'
          · rw [ih3]
            simp [Nat.add_assoc]

/-- Consecutive entries of the reference timeline are non-decreasing and
gap-free: each next timestamp equals the previous timestamp plus the
previous duration. -/
theorem timeline_chain (rate : Nat) (ns : List Nat) :
    ∀ t : ℚ, List.Chain' (fun p q : ℚ × ℚ => p.1 ≤ q.1 ∧ q.1 = p.1 + p.2)
      (timeline t rate ns) := by
  induction ns with
  | nil => intro t; simp [timeline]
  | cons n ns ih =>
    intro t
    rw [timeline]
    refine List.chain'_cons'.2 ⟨?_, ih _⟩
    intro q hq
    cases ns with
    | nil => simp [timeline] at hq
    | cons m ms =>
      rw [timeline] at hq
      simp at hq
      subst hq
      exact ⟨le_add_of_nonneg_right (by positivity), rfl⟩


/-- C4: a Success batch is stamped in arrival order with the running
timestamp, each duration being `frame_count / sample_rate`, after which the
running count advances; the resulting timestamps equal the reference
timeline (so they are independent of the timestamps the decryptor attached),
are non-decreasing and gap-free, and the helper leaves off where the next
batch will continue; the base is seeded from the first non-end-of-stream
buffer's timestamp by `Decode`. -/
theorem C4_timestamps (d : DecryptingAudioDecoder) (h : AudioTimestampHelper)
    (b : ℚ) (frames : List AudioBuffer) (d' : DecryptingAudioDecoder)
    (hth : d.timestamp_helper = some h) (hb : h.base_timestamp = some b)
    (henq : EnqueueFrames d frames = some d') :
    d'.queued_audio_frames.map (fun f => (f.timestamp, f.duration)) =
      timeline (b + (h.frame_count : ℚ) / (h.samples_per_second : ℚ))
        h.samples_per_second (frames.map (fun f => f.frame_count)) ∧
    (∀ f ∈ d'.queued_audio_frames,
      f.duration = (f.frame_count : ℚ) / (h.samples_per_second : ℚ)) ∧
    List.Chain' (fun f g : AudioBuffer =>
      f.timestamp ≤ g.timestamp ∧ g.timestamp = f.timestamp + f.duration)
      d'.queued_audio_frames ∧
    d'.timestamp_helper =
      some { h with frame_count :=
               h.frame_count + (frames.map (fun f => f.frame_count)).sum } ∧
    (∀ (d0 : DecryptingAudioDecoder) (h0 : AudioTimestampHelper)
       (db : DecoderBuffer) (d1 : DecryptingAudioDecoder) (evs : List Event),
      d0.state = .kIdle → d0.decode_cb = false →
      d0.queued_audio_frames = [] → d0.timestamp_helper = some h0 →
      h0.base_timestamp = none → db.end_of_stream = false →
      Decode d0 (some db) = some (d1, evs) →
      d1.timestamp_helper =
        some (AudioTimestampHelper.SetBaseTimestamp h0 (some db.timestamp))) := by
  unfold EnqueueFrames at henq
  rw [hth] at henq
  rcases hloop : enqueueLoop h frames with _ | ⟨fs', h''⟩
  · simp [hloop] at henq
  · simp only [hloop] at henq
    simp at henq
    obtain ⟨rfl⟩ := henq
    obtain ⟨l1, l2, l3⟩ := enqueueLoop_timeline frames h b hb fs' h'' hloop
    refine ⟨l1, l2, ?_, by simp [l3], ?_⟩
    · have hch := timeline_chain h.samples_per_second
        (frames.map (fun f => f.frame_count))
        (b + (h.frame_count : ℚ) / (h.samples_per_second : ℚ))
      rw [← l1] at hch
      exact (List.chain'_map _).1 hch
    · intro d0 h0 db d1 evs hs0 hdc0 hq0 hth0 hb0 heos0 hdec
      have hcomp : Decode d0 (some db) =
          some ({ d0 with decode_cb := true,
                          timestamp_helper :=
                            some (AudioTimestampHelper.SetBaseTimestamp h0
                                    (some db.timestamp)),
                          pending_buffer_to_decode := some db,
                          state := .kPendingDecode },
                [.DecryptAndDecodeAudio db]) := by
        simp [Decode, DecodePendingBuffer, hs0, hdc0, hq0, hth0, hb0, heos0]
      rw [hcomp] at hdec
      simp only [Option.some.injEq, Prod.mk.injEq] at hdec
      obtain ⟨rfl, -⟩ := hdec
      rfl


/-- C4 witness: two 100-frame batches at 48 kHz starting from base 0 get
timestamps 0 and 100/48000 with equal durations, forming a gap-free chain. -/
theorem C4_timestamps_witness :
    dPending.timestamp_helper =
      some (⟨48000, some 0, 0⟩ : AudioTimestampHelper) ∧
    (⟨48000, some 0, 0⟩ : AudioTimestampHelper).base_timestamp = some (0 : ℚ) ∧
    ∃ d', EnqueueFrames dPending [frame0, { frame0 with payload := 12 }] =
        some d' ∧
      d'.queued_audio_frames.map (fun f => (f.timestamp, f.duration)) =
        timeline ((0 : ℚ) + ((0 : ℕ) : ℚ) / ((48000 : ℕ) : ℚ)) 48000
          ([frame0, { frame0 with payload := 12 }].map
            (fun f => f.frame_count)) ∧
      List.Chain' (fun f g : AudioBuffer =>
        f.timestamp ≤ g.timestamp ∧ g.timestamp = f.timestamp + f.duration)
        d'.queued_audio_frames := by
  obtain ⟨c1, c2, c3, c4, c5⟩ :=
    C4_timestamps dPending ⟨48000, some 0, 0⟩ 0
      [frame0, { frame0 with payload := 12 }] _ rfl rfl rfl
  exact ⟨rfl, rfl, _, rfl, c1, c3⟩

end Theorems

end Media
